import Mathlib

/-!
# Verification of the Terraform multi-agent pipeline (jja4/terraform_adk_agents)

This development shallowly embeds the pure, deterministic parts of the
pipeline — the response-text normalizers, the JSON decoders with their repair
logic, the Pydantic output schemas, the validator decision and feedback
functions, and the Generator/Validator validation loop — and proves the
specified properties about them.

Python strings are modelled as `List Char` (Python indexes by code point).
Machine-external effects (the LLM runners) are modelled as oracle functions
supplying response texts; file writes are modelled as the list of
(path, content) pairs the code would write.

`json.loads` is modelled after CPython's `json` decoder (`json/decoder.py` /
`json/scanner.py`): same scan order, same error messages and same reported
error offsets for the paths exercised here.  Error messages that embed a
`repr` of a character (invalid-escape and control-character errors) are
modelled without the `repr` rendering; no property here depends on them.
Lone-surrogate `\uXXXX` escapes, which Python would keep as surrogate code
units, fall back to `Char.ofNat`'s default; no property here depends on them.
-/

/-! ## Python string primitives -/

/-- The character `{` (kept out of source text for tooling reasons). -/
def lbrace : Char := Char.ofNat 123

/-- The character `}`. -/
def rbrace : Char := Char.ofNat 125

/-- The character `'` (single quote). -/
def squote : Char := Char.ofNat 39

/-- The backslash character. -/
def bslash : Char := Char.ofNat 92

/-- JSON whitespace, CPython `json.decoder.WHITESPACE_STR` = `' \t\n\r'`. -/
def isJsonWs (c : Char) : Bool :=
  c = ' ' ∨ c = '\t' ∨ c = '\n' ∨ c = '\r'

/-- ASCII whitespace stripped by Python `str.strip()` / `str.rstrip()`. -/
def isPyWs (c : Char) : Bool :=
  c = ' ' ∨ c = '\t' ∨ c = '\n' ∨ c = '\r' ∨ c = Char.ofNat 11 ∨ c = Char.ofNat 12

/-- `s[i]` as an `Option`: `none` models Python's `IndexError` / empty slice. -/
def pyCharAt (s : List Char) (i : Nat) : Option Char :=
  (s.drop i).head?

/-- Python slice `s[a:b]` for non-negative bounds (both ends clamp). -/
def pySlice (s : List Char) (a b : Nat) : List Char :=
  (s.take b).drop a

/-- `s[:pos] + [c] + s[pos:]`. -/
def pyInsertAt (s : List Char) (pos : Nat) (c : Char) : List Char :=
  s.take pos ++ [c] ++ s.drop pos

/-- Python `str.strip()` (ASCII whitespace). -/
def pyStrip (s : List Char) : List Char :=
  ((s.dropWhile isPyWs).reverse.dropWhile isPyWs).reverse

/-- Python `str.rstrip()`. -/
def pyRStrip (s : List Char) : List Char :=
  (s.reverse.dropWhile isPyWs).reverse

/-- Scan for the first occurrence of `sub` at an index `≥ i`; fuel-driven so
that the kernel can evaluate it. -/
def pyFindGo (hay sub : List Char) : Nat → Nat → Option Nat
  | _, 0 => none
  | i, fuel + 1 =>
    if sub.isPrefixOf (hay.drop i) then some i
    else pyFindGo hay sub (i + 1) fuel

/-- Python `hay.find(sub, start)`, as an `Option` (`none` models `-1`).
Faithful for non-empty `sub`, the only case used in this repository. -/
def pyFind (hay sub : List Char) (start : Nat) : Option Nat :=
  pyFindGo hay sub start (hay.length + 1 - start)

/-- Python `sub in hay`. -/
def pyContains (hay sub : List Char) : Bool :=
  (pyFind hay sub 0).isSome

/-- `sub` occurs in `hay` at index `i`. -/
def isSubAt (hay sub : List Char) (i : Nat) : Bool :=
  sub.isPrefixOf (hay.drop i)

/-- All indices at which `sub` occurs in `hay` (used for the spec-side
"last closing fence" reading). -/
def subOccurrences (hay sub : List Char) : List Nat :=
  (List.range (hay.length + 1)).filter (fun i => isSubAt hay sub i)

/-- Python `hay.rfind(sub, start)` restricted to indices `≥ start`:
the greatest occurrence index, if any. -/
def pyRFindFrom (hay sub : List Char) (start : Nat) : Option Nat :=
  ((subOccurrences hay sub).filter (fun i => start ≤ i)).getLast?

/-- Python `hay.rfind(sub)`. -/
def pyRFind (hay sub : List Char) : Option Nat :=
  pyRFindFrom hay sub 0

/-- Decimal digits of a natural number, via `toString`. -/
def natChars (n : Nat) : List Char :=
  (toString n).toList

/-- `int()` on a digit string with optional sign (used for JSON integers). -/
def digitsToNat (l : List Char) : Nat :=
  l.foldl (fun acc c => acc * 10 + (c.toNat - 48)) 0

/-! ## CPython `json` decoder model -/

/-- Decoded JSON values.  Numbers with a fractional part or exponent are kept
as their raw matched text (`jfloat`); nothing in this repository inspects a
decoded float. Objects are Python dicts: first-insertion key order, later
duplicates overwrite (`pyDict`). -/
inductive JValue where
  | null
  | jbool (b : Bool)
  | jint (n : Int)
  | jfloat (raw : List Char)
  | jstr (s : List Char)
  | jarr (xs : List JValue)
  | jobj (kvs : List (List Char × JValue))

/-- `json.JSONDecodeError`: message, offset, and the line/column derived from
the document at construction time (as CPython does). -/
structure JErr where
  msg : List Char
  pos : Nat
  lineno : Nat
  colno : Nat
deriving DecidableEq, Repr

/-- Build a `JSONDecodeError` the way CPython does:
`lineno = doc.count('\n', 0, pos) + 1`, `colno = pos - doc.rfind('\n', 0, pos)`
(`rfind` returning `-1` gives `colno = pos + 1`). -/
def mkJErr (msg : List Char) (doc : List Char) (pos : Nat) : JErr :=
  let lineno := ((doc.take pos).count '\n') + 1
  let colno :=
    match (doc.take pos).reverse.findIdx? (fun c => c = '\n') with
    | some r => pos - (pos - 1 - r)
    | none => pos + 1
  ⟨msg, pos, lineno, colno⟩

/-- `str(e)` for a `JSONDecodeError`:
`"{msg}: line {lineno} column {colno} (char {pos})"`. -/
def jerrStr (e : JErr) : List Char :=
  e.msg ++ (": line ").toList ++ natChars e.lineno ++ (" column ").toList ++
    natChars e.colno ++ (" (char ").toList ++ natChars e.pos ++ (")").toList

/-- Scanner-internal error: `StopIteration(idx)` (converted to
`Expecting value` by the callers that catch it) or a raised decode error. -/
inductive ScanErr where
  | stopIter (pos : Nat)
  | jerr (e : JErr)

def msgValue : List Char := ("Expecting value").toList
def msgExtra : List Char := ("Extra data").toList
def msgComma : List Char :=
  ("Expecting ").toList ++ [squote, ',', squote] ++ (" delimiter").toList
def msgColon : List Char :=
  ("Expecting ").toList ++ [squote, ':', squote] ++ (" delimiter").toList
def msgPropName : List Char :=
  ("Expecting property name enclosed in double quotes").toList
def msgUnterm : List Char := ("Unterminated string starting at").toList
def msgCtrl : List Char := ("Invalid control character at").toList
def msgBadEsc : List Char := ("Invalid ").toList ++ [bslash] ++ ("escape").toList
def msgBadU : List Char :=
  ("Invalid ").toList ++ [bslash] ++ ("uXXXX escape").toList

/-- Number of leading JSON-whitespace characters. -/
def countLeadingJsonWs : List Char → Nat
  | c :: cs => if isJsonWs c then countLeadingJsonWs cs + 1 else 0
  | [] => 0

/-- `WHITESPACE.match(s, i).end()`: first index `≥ i` holding a
non-whitespace character (or the length). -/
def skipWs (s : List Char) (i : Nat) : Nat :=
  i + countLeadingJsonWs (s.drop i)

/-- `s[i:i+len(lit)] == lit`. -/
def sliceEq (s : List Char) (i : Nat) (lit : List Char) : Bool :=
  lit.isPrefixOf (s.drop i)

/-- Split off the STRINGCHUNK content: the characters before the first
terminator (`"`, backslash, or a control character), plus that terminator
and the remainder, if one exists. -/
def chunkSplit : List Char → List Char × Option (Char × List Char)
  | c :: cs =>
    if c = '"' ∨ c = bslash ∨ c.toNat < 32 then ([], some (c, cs))
    else
      let (a, b) := chunkSplit cs
      (c :: a, b)
  | [] => ([], none)

/-- Value of a hex digit, if any. -/
def hexVal (c : Char) : Option Nat :=
  if '0' ≤ c ∧ c ≤ '9' then some (c.toNat - 48)
  else if 'a' ≤ c ∧ c ≤ 'f' then some (c.toNat - 87)
  else if 'A' ≤ c ∧ c ≤ 'F' then some (c.toNat - 55)
  else none

/-- Four hex digits starting at `i`, as a number. -/
def hex4 (s : List Char) (i : Nat) : Option Nat :=
  match pyCharAt s i, pyCharAt s (i + 1), pyCharAt s (i + 2), pyCharAt s (i + 3) with
  | some a, some b, some c, some d =>
    match hexVal a, hexVal b, hexVal c, hexVal d with
    | some va, some vb, some vc, some vd =>
      some (((va * 16 + vb) * 16 + vc) * 16 + vd)
    | _, _, _, _ => none
  | _, _, _, _ => none

/-- `json.decoder.BACKSLASH` lookup table. -/
def backslashMap (c : Char) : Option Char :=
  if c = '"' then some '"'
  else if c = bslash then some bslash
  else if c = '/' then some '/'
  else if c = 'b' then some (Char.ofNat 8)
  else if c = 'f' then some (Char.ofNat 12)
  else if c = 'n' then some '\n'
  else if c = 'r' then some '\r'
  else if c = 't' then some '\t'
  else none

/-- `_decode_uXXXX` plus the surrogate-pair lookahead of `py_scanstring`:
given the index of the `u`, return the resulting code point and the index
after the consumed escape text. -/
def decodeUFull (s : List Char) (posU : Nat) : Except JErr (Nat × Nat) :=
  match hex4 s (posU + 1) with
  | none => .error (mkJErr msgBadU s posU)
  | some uni =>
    let e := posU + 5
    if 0xd800 ≤ uni ∧ uni ≤ 0xdbff ∧ sliceEq s e [bslash, 'u'] then
      match hex4 s (e + 2) with
      | none => .error (mkJErr msgBadU s (e + 1))
      | some uni2 =>
        if 0xdc00 ≤ uni2 ∧ uni2 ≤ 0xdfff then
          .ok (0x10000 + ((uni - 0xd800) * 1024 + (uni2 - 0xdc00)), e + 6)
        else .ok (uni, e)
    else .ok (uni, e)

/-- `py_scanstring` body (strict mode), fuel-driven: `bpos` is the index of
the opening quote, `e` the scan position, `acc` the chunks so far. -/
def scanStringGo (s : List Char) (bpos : Nat) :
    Nat → Nat → List Char → Except JErr (List Char × Nat)
  | _, 0, _ => .error (mkJErr msgUnterm s bpos)
  | e, fuel + 1, acc =>
    let (content, rest?) := chunkSplit (s.drop e)
    match rest? with
    | none => .error (mkJErr msgUnterm s bpos)
    | some (term, _) =>
      let e1 := e + content.length + 1
      let acc1 := acc ++ content
      if term = '"' then .ok (acc1, e1)
      else if term ≠ bslash then .error (mkJErr msgCtrl s e1)
      else
        match pyCharAt s e1 with
        | none => .error (mkJErr msgUnterm s bpos)
        | some esc =>
          if esc = 'u' then
            match decodeUFull s e1 with
            | .error je => .error je
            | .ok (uni, e2) => scanStringGo s bpos e2 fuel (acc1 ++ [Char.ofNat uni])
          else
            match backslashMap esc with
            | some c => scanStringGo s bpos (e1 + 1) fuel (acc1 ++ [c])
            | none => .error (mkJErr msgBadEsc s e1)

/-- `py_scanstring(s, start)`: `start` is the index just after the opening
quote; returns the decoded string and the index after the closing quote. -/
def scanString (s : List Char) (start : Nat) : Except JErr (List Char × Nat) :=
  scanStringGo s (start - 1) start (s.length + 1) []

/-- `NUMBER_RE` match at `i`: returns (is-integer, raw matched text, end). -/
def matchNumber (s : List Char) (i : Nat) : Option (Bool × List Char × Nat) :=
  let rest := s.drop i
  let (negPart, rest1) :=
    match rest with
    | '-' :: cs => (['-'], cs)
    | _ => (([] : List Char), rest)
  let intPart? : Option (List Char × List Char) :=
    match rest1 with
    | '0' :: cs => some (['0'], cs)
    | c :: cs =>
      if c.isDigit then
        let digs := cs.takeWhile Char.isDigit
        some (c :: digs, cs.drop digs.length)
      else none
    | [] => none
  match intPart? with
  | none => none
  | some (intPart, rest2) =>
    let (fracPart, rest3) :=
      match rest2 with
      | '.' :: cs =>
        let digs := cs.takeWhile Char.isDigit
        if digs.isEmpty then (([] : List Char), rest2)
        else ('.' :: digs, cs.drop digs.length)
      | _ => (([] : List Char), rest2)
    let (expPart, _rest4) :=
      match rest3 with
      | c :: cs =>
        if c = 'e' ∨ c = 'E' then
          let (sgn, cs2) :=
            match cs with
            | c2 :: cs2 => if c2 = '+' ∨ c2 = '-' then ([c2], cs2) else (([] : List Char), cs)
            | [] => (([] : List Char), cs)
          let digs := cs2.takeWhile Char.isDigit
          if digs.isEmpty then (([] : List Char), rest3)
          else (c :: sgn ++ digs, cs2.drop digs.length)
        else (([] : List Char), rest3)
      | [] => (([] : List Char), rest3)
    let raw := negPart ++ intPart ++ fracPart ++ expPart
    some (fracPart.isEmpty ∧ expPart.isEmpty, raw, i + raw.length)

/-- Integer value of a matched integer literal (optional `-`, then digits). -/
def intOfRaw (raw : List Char) : Int :=
  match raw with
  | '-' :: ds => -(digitsToNat ds : Int)
  | ds => (digitsToNat ds : Int)

/-- `dict(pairs)`: first-insertion key order, later values overwrite. -/
def pyDict (pairs : List (List Char × JValue)) : List (List Char × JValue) :=
  pairs.foldl
    (fun acc kv =>
      if acc.any (fun p => p.1 = kv.1) then
        acc.map (fun p => if p.1 = kv.1 then (p.1, kv.2) else p)
      else acc ++ [kv])
    []

/-- `nextchar = s[end:end+1]; if nextchar in _ws: end = _w(s, end+1).end();
nextchar = s[end:end+1]` — the whitespace lookahead of `JSONArray` and the
post-value lookahead of `JSONObject`. -/
def wsAdvance (s : List Char) (e : Nat) : Nat × Option Char :=
  match pyCharAt s e with
  | some c =>
    if isJsonWs c then
      let e2 := skipWs s (e + 1)
      (e2, pyCharAt s e2)
    else (e, some c)
  | none => (e, none)

/-- The guarded fast-path whitespace skip
`try: if s[end] in _ws: end += 1; if s[end] in _ws: end = _w(s, end+1).end()
except IndexError: pass` shared by `JSONArray` and `JSONObject`. -/
def wsFastSkip (s : List Char) (e : Nat) : Nat :=
  match pyCharAt s e with
  | none => e
  | some c =>
    if isJsonWs c then
      match pyCharAt s (e + 1) with
      | none => e + 1
      | some c2 => if isJsonWs c2 then skipWs s (e + 2) else e + 1
    else e

/-- Work items of the scanner: a value scan (`_scan_once`), array/object
entry handling, and their element loops.  Folding the CPython mutual
recursion into one fuel-indexed function keeps every definition
kernel-reducible. -/
inductive JTask where
  | value (idx : Nat)
  | arrStart (e : Nat)
  | arrLoop (e : Nat) (acc : List JValue)
  | objStart (e : Nat)
  | objKey (e : Nat) (acc : List (List Char × JValue))

/-- Scan position associated with a task (used only for the unreachable
fuel-exhaustion branch). -/
def JTask.idxOf : JTask → Nat
  | .value i => i
  | .arrStart e => e
  | .arrLoop e _ => e
  | .objStart e => e
  | .objKey e _ => e

/-- The CPython scanner (`_scan_once` / `JSONArray` / `JSONObject`),
fuel-indexed.  `pyJsonLoads` supplies fuel that the input cannot exhaust. -/
def jsonGo (s : List Char) : Nat → JTask → Except ScanErr (JValue × Nat)
  | 0, t => .error (.stopIter t.idxOf)
  | fuel + 1, .value idx =>
    match pyCharAt s idx with
    | none => .error (.stopIter idx)
    | some c =>
      if c = '"' then
        match scanString s (idx + 1) with
        | .ok (str, e) => .ok (.jstr str, e)
        | .error je => .error (.jerr je)
      else if c = lbrace then jsonGo s fuel (.objStart (idx + 1))
      else if c = '[' then jsonGo s fuel (.arrStart (idx + 1))
      else if c = 'n' ∧ sliceEq s idx (("null").toList) then .ok (.null, idx + 4)
      else if c = 't' ∧ sliceEq s idx (("true").toList) then .ok (.jbool true, idx + 4)
      else if c = 'f' ∧ sliceEq s idx (("false").toList) then .ok (.jbool false, idx + 5)
      else
        match matchNumber s idx with
        | some (isInt, raw, e) =>
          .ok (if isInt then .jint (intOfRaw raw) else .jfloat raw, e)
        | none =>
          if c = 'N' ∧ sliceEq s idx (("NaN").toList) then
            .ok (.jfloat (("NaN").toList), idx + 3)
          else if c = 'I' ∧ sliceEq s idx (("Infinity").toList) then
            .ok (.jfloat (("Infinity").toList), idx + 8)
          else if c = '-' ∧ sliceEq s idx (("-Infinity").toList) then
            .ok (.jfloat (("-Infinity").toList), idx + 9)
          else .error (.stopIter idx)
  | fuel + 1, .arrStart e =>
    let (e1, nc) := wsAdvance s e
    if nc = some ']' then .ok (.jarr [], e1 + 1)
    else jsonGo s fuel (.arrLoop e1 [])
  | fuel + 1, .arrLoop e acc =>
    match jsonGo s fuel (.value e) with
    | .error (.stopIter p) => .error (.jerr (mkJErr msgValue s p))
    | .error x => .error x
    | .ok (v, e1) =>
      let acc1 := acc ++ [v]
      let (e2, nc) := wsAdvance s e1
      let e3 := e2 + 1
      if nc = some ']' then .ok (.jarr acc1, e3)
      else if nc ≠ some ',' then .error (.jerr (mkJErr msgComma s (e3 - 1)))
      else jsonGo s fuel (.arrLoop (wsFastSkip s e3) acc1)
  | fuel + 1, .objStart e =>
    let nc0 := pyCharAt s e
    if nc0 = some '"' then jsonGo s fuel (.objKey (e + 1) [])
    else
      let (e1, nc1) :=
        match nc0 with
        | some c =>
          if isJsonWs c then
            let ew := skipWs s e
            (ew, pyCharAt s ew)
          else (e, nc0)
        | none => (e, nc0)
      if nc1 = some rbrace then .ok (.jobj [], e1 + 1)
      else if nc1 ≠ some '"' then .error (.jerr (mkJErr msgPropName s e1))
      else jsonGo s fuel (.objKey (e1 + 1) [])
  | fuel + 1, .objKey e acc =>
    match scanString s e with
    | .error je => .error (.jerr je)
    | .ok (key, e1) =>
      let e2 := if pyCharAt s e1 = some ':' then e1 else skipWs s e1
      if pyCharAt s e2 ≠ some ':' then .error (.jerr (mkJErr msgColon s e2))
      else
        let e4 := wsFastSkip s (e2 + 1)
        match jsonGo s fuel (.value e4) with
        | .error (.stopIter p) => .error (.jerr (mkJErr msgValue s p))
        | .error x => .error x
        | .ok (v, e5) =>
          let acc1 := acc ++ [(key, v)]
          let (e6, nc) := wsAdvance s e5
          let e7 := e6 + 1
          if nc = some rbrace then .ok (.jobj (pyDict acc1), e7)
          else if nc ≠ some ',' then .error (.jerr (mkJErr msgComma s (e7 - 1)))
          else
            let e8 := skipWs s e7
            let nc2 := pyCharAt s e8
            let e9 := e8 + 1
            if nc2 ≠ some '"' then .error (.jerr (mkJErr msgPropName s (e9 - 1)))
            else jsonGo s fuel (.objKey e9 acc1)

/-- `json.loads`: leading-whitespace skip, one value scan, trailing
whitespace, `Extra data` check. -/
def pyJsonLoads (s : List Char) : Except JErr JValue :=
  let idx := skipWs s 0
  match jsonGo s (4 * s.length + 16) (.value idx) with
  | .error (.stopIter p) => .error (mkJErr msgValue s p)
  | .error (.jerr e) => .error e
  | .ok (v, e) =>
    let e2 := skipWs s e
    if e2 ≠ s.length then .error (mkJErr msgExtra s e2) else .ok v

/-! ## Pydantic schemas (src/schemas.py)

`ValidationError` / `ValidatorOutput` / `DocumentationOutput` are the Pydantic
models the agents exchange.  `Literal` fields are kept as `String` (the Python
code compares them as strings); the decode-time checks live in
`validationErrorOfJ` / `pyValidatorOutputOfDict`. -/

structure ValidationError where
  severity : String
  file : String
  message : String
  fix : String
deriving DecidableEq, Repr

structure ValidatorOutput where
  validation_status : String
  syntax_valid : Bool
  configuration_valid : Bool
  errors : List ValidationError
  error_count : Int
  summary : String
deriving DecidableEq, Repr

structure DocumentationOutput where
  readme : String
  deployment_guide : Option String
  architecture_diagram : Option String
  security_guide : Option String
  troubleshooting : Option String
deriving DecidableEq, Repr

/-- Dict lookup (`data["k"]`) on a decoded JSON object. -/
def jGet (kvs : List (List Char × JValue)) (k : String) : Option JValue :=
  (kvs.find? (fun p => p.1 = k.toList)).map (fun p => p.2)

/-- Pydantic v2 lax coercion to `int` for the shapes that can occur here:
a JSON integer, or a numeric string.  (Bools are rejected by pydantic for
`int` fields; non-integral floats error and integral floats never occur in
this development, so `jfloat` is conservatively rejected.) -/
def pydInt : JValue → Option Int
  | .jint n => some n
  | .jstr cs =>
    match cs with
    | '-' :: ds => if ds ≠ [] ∧ ds.all Char.isDigit then some (-(digitsToNat ds : Int)) else none
    | ds => if ds ≠ [] ∧ ds.all Char.isDigit then some ((digitsToNat ds : Int)) else none
  | _ => none

/-- Validate one entry of `errors` against the `ValidationError` model:
`severity` a literal of `error|warning|info`, `file` a string, `message` and
`fix` strings of at most 100 characters. -/
def validationErrorOfJ : JValue → Except (List Char) ValidationError
  | .jobj kvs => do
    let sev ←
      match jGet kvs "severity" with
      | some (.jstr cs) =>
        if String.mk cs = "error" ∨ String.mk cs = "warning" ∨ String.mk cs = "info" then
          Except.ok (String.mk cs)
        else Except.error (("severity literal").toList)
      | _ => Except.error (("severity").toList)
    let file ←
      match jGet kvs "file" with
      | some (.jstr cs) => Except.ok (String.mk cs)
      | _ => Except.error (("file").toList)
    let message ←
      match jGet kvs "message" with
      | some (.jstr cs) =>
        if cs.length ≤ 100 then Except.ok (String.mk cs)
        else Except.error (("message max_length").toList)
      | _ => Except.error (("message").toList)
    let fix ←
      match jGet kvs "fix" with
      | some (.jstr cs) =>
        if cs.length ≤ 100 then Except.ok (String.mk cs)
        else Except.error (("fix max_length").toList)
      | _ => Except.error (("fix").toList)
    Except.ok ⟨sev, file, message, fix⟩
  | _ => Except.error (("error entry not an object").toList)

/-- `ValidatorOutput(**data)` for a dict `data`: field presence/type checks of
the Pydantic model (`.error` models `pydantic.ValidationError`; its message
text is a placeholder — nothing proved here depends on it). Extra keys are
ignored, `errors` defaults to `[]` and is capped at 10 entries, `summary` at
200 characters. -/
def pyValidatorOutputOfDict (kvs : List (List Char × JValue)) :
    Except (List Char) ValidatorOutput := do
  let vs ←
    match jGet kvs "validation_status" with
    | some (.jstr cs) =>
      if String.mk cs = "passed" ∨ String.mk cs = "failed" then Except.ok (String.mk cs)
      else Except.error (("validation_status literal").toList)
    | _ => Except.error (("validation_status").toList)
  let sv ←
    match jGet kvs "syntax_valid" with
    | some (.jbool b) => Except.ok b
    | _ => Except.error (("syntax_valid").toList)
  let cv ←
    match jGet kvs "configuration_valid" with
    | some (.jbool b) => Except.ok b
    | _ => Except.error (("configuration_valid").toList)
  let errs ←
    match jGet kvs "errors" with
    | none => Except.ok ([] : List ValidationError)
    | some (.jarr xs) =>
      if xs.length ≤ 10 then xs.mapM validationErrorOfJ
      else Except.error (("errors max_length").toList)
    | some _ => Except.error (("errors").toList)
  let ec ←
    match jGet kvs "error_count" with
    | some v =>
      match pydInt v with
      | some n => Except.ok n
      | none => Except.error (("error_count").toList)
    | none => Except.error (("error_count").toList)
  let sm ←
    match jGet kvs "summary" with
    | some (.jstr cs) =>
      if cs.length ≤ 200 then Except.ok (String.mk cs)
      else Except.error (("summary max_length").toList)
    | _ => Except.error (("summary").toList)
  Except.ok ⟨vs, sv, cv, errs, ec, sm⟩

/-! ## Validator agent (src/agents/validator_agent.py) -/

def fenceJson : List Char := ("```json").toList
def fence3 : List Char := ("```").toList
def fenceMd : List Char := ("```markdown").toList

/-- Python exceptions that can escape the decoders and the loop. -/
inductive PyErr where
  | typeErr
  | valueErr (msg : List Char)

/-- The markdown-fence extraction stage of `parse_validation_results`
(strip, prefer a ```json block, else a generic block that starts with a
brace, strip again). -/
def pvrExtract (s0 : List Char) : List Char :=
  let response := pyStrip s0
  let response :=
    match pyFind response fenceJson 0 with
    | some i =>
      let json_start := i + 7
      match pyFind response fence3 json_start with
      | some json_end =>
        if json_start < json_end then pyStrip (pySlice response json_start json_end)
        else response
      | none => response
    | none =>
      match pyFind response fence3 0 with
      | some i =>
        let json_start := i + 3
        match pyFind response fence3 json_start with
        | some json_end =>
          if json_start < json_end then
            let potential_json := pyStrip (pySlice response json_start json_end)
            if isSubAt potential_json [lbrace] 0 then potential_json else response
          else response
        | none => response
      | none => response
  pyStrip response

/-- The fallback `ValidatorOutput` built when `json.loads` raises
(`except json.JSONDecodeError`). -/
def pvrJsonFallback (e : JErr) : ValidatorOutput :=
  { validation_status := "failed"
    syntax_valid := true
    configuration_valid := false
    errors := [⟨"error", "unknown", "JSON parsing failed", "Check response format"⟩]
    error_count := 1
    summary := "Parse error: " ++ String.mk ((jerrStr e).take 150) }

/-- The fallback `ValidatorOutput` built when Pydantic validation fails
(`except PydanticValidationError`); `em` is the (placeholder) error text. -/
def pvrPydFallback (em : List Char) : ValidatorOutput :=
  { validation_status := "failed"
    syntax_valid := true
    configuration_valid := false
    errors := [⟨"error", "unknown", "Schema validation failed", "Check ValidatorOutput schema"⟩]
    error_count := 1
    summary := "Validation error: " ++ String.mk (em.take 150) }

/-- `parse_validation_results`: extract, `json.loads`, `ValidatorOutput(**data)`.
JSON decode errors and Pydantic validation errors are caught and replaced by
fallback records; a decoded non-object reaches `ValidatorOutput(**data)` as a
non-mapping and raises an uncaught `TypeError`. -/
def parse_validation_results (agent_response : List Char) : Except PyErr ValidatorOutput :=
  let response := pvrExtract agent_response
  match pyJsonLoads response with
  | .ok (.jobj kvs) =>
    match pyValidatorOutputOfDict kvs with
    | .ok v => .ok v
    | .error em => .ok (pvrPydFallback em)
  | .ok _ => .error .typeErr
  | .error e => .ok (pvrJsonFallback e)

/-- `should_regenerate`: regenerate when the status is `failed` or any error
entry has severity `error`. -/
def should_regenerate (validation_results : ValidatorOutput) : Bool :=
  let status := validation_results.validation_status
  if status = "failed" then true
  else validation_results.errors.any (fun error => error.severity = "error")

/-- `get_feedback_for_regeneration`: header, one block of `error`-severity
entries, one block of `warning`-severity entries, joined by newlines. -/
def get_feedback_for_regeneration (validation_results : ValidatorOutput) : String :=
  let errors := validation_results.errors
  let feedback_parts := ["The Terraform code has the following issues that need to be fixed:\n"]
  let critical_errors := errors.filter (fun e => e.severity = "error")
  let feedback_parts :=
    if critical_errors.isEmpty then feedback_parts
    else
      feedback_parts ++ ["\n**CRITICAL ERRORS:**"] ++
        critical_errors.map (fun error =>
          "- [" ++ error.file ++ "] " ++ error.message ++ "\n  Fix: " ++ error.fix)
  let warnings := errors.filter (fun e => e.severity = "warning")
  let feedback_parts :=
    if warnings.isEmpty then feedback_parts
    else
      feedback_parts ++ ["\n**WARNINGS:**"] ++
        warnings.map (fun warning =>
          "- [" ++ warning.file ++ "] " ++ warning.message ++ "\n  Suggestion: " ++ warning.fix)
  String.intercalate "\n" feedback_parts

/-! ## Generator agent (src/agents/generator_agent.py) -/

/-- The markdown-fence extraction stage of `parse_generated_terraform`
(generic blocks are used when they start with a brace or a bracket). -/
def pgtExtract (s0 : List Char) : List Char :=
  let response := pyStrip s0
  let response :=
    match pyFind response fenceJson 0 with
    | some i =>
      let json_start := i + 7
      match pyFind response fence3 json_start with
      | some json_end =>
        if json_start < json_end then pyStrip (pySlice response json_start json_end)
        else response
      | none => response
    | none =>
      match pyFind response fence3 0 with
      | some i =>
        let json_start := i + 3
        match pyFind response fence3 json_start with
        | some json_end =>
          if json_start < json_end then
            let potential_json := pyStrip (pySlice response json_start json_end)
            if isSubAt potential_json [lbrace] 0 ∨ isSubAt potential_json [Char.ofNat 91] 0 then
              potential_json
            else response
          else response
        | none => response
      | none => response
  pyStrip response

/-- `response[pos-1] in ['}', ']', '"']`. -/
def isCloser : Option Char → Bool
  | some c => c = rbrace ∨ c = ']' ∨ c = '"'
  | none => false

/-- The closing sequence `'"]}]}'` appended for unterminated strings. -/
def closeSeq : List Char := ['"', ']', rbrace, ']', rbrace]

/-- The `ValueError` message raised when all repairs fail (the f-string at the
end of `parse_generated_terraform`); `response` is the text as possibly
modified by the repair attempts. -/
def pgtRaiseMsg (e : JErr) (response : List Char) : List Char :=
  ("Failed to parse generated Terraform JSON: ").toList ++ jerrStr e ++
    ("\nError at position ").toList ++ natChars e.pos ++ (": ").toList ++ e.msg ++
    ("\nContext: ...").toList ++
    pySlice response (e.pos - 100) (min response.length (e.pos + 100)) ++
    ("...\nFirst 500 chars: ").toList ++ response.take 500

/-- The decode stage of `parse_generated_terraform`: strict `json.loads`,
then the missing-comma repair (guarded on the character before the failure
offset), then the unterminated-string repair (guarded on an odd quote
count), each retried once; otherwise `ValueError`. -/
def pgtDecode (response0 : List Char) : Except PyErr JValue :=
  match pyJsonLoads response0 with
  | .ok v => .ok v
  | .error e =>
    let se := jerrStr e
    let afterComma : List Char ⊕ JValue :=
      if pyContains se msgComma ∧ 0 < e.pos ∧ isCloser (pyCharAt response0 (e.pos - 1)) then
        let r1 := pyInsertAt response0 e.pos ','
        match pyJsonLoads r1 with
        | .ok v => Sum.inr v
        | .error _ => Sum.inl r1
      else Sum.inl response0
    match afterComma with
    | Sum.inr v => .ok v
    | Sum.inl response1 =>
      let afterString : List Char ⊕ JValue :=
        if pyContains se msgUnterm ∧ response1.count '"' % 2 = 1 then
          let r2 := pyRStrip response1 ++ closeSeq
          match pyJsonLoads r2 with
          | .ok v => Sum.inr v
          | .error _ => Sum.inl r2
        else Sum.inl response1
      match afterString with
      | Sum.inr v => .ok v
      | Sum.inl response2 => .error (.valueErr (pgtRaiseMsg e response2))

/-- `parse_generated_terraform`: fence extraction then the decode stage.
The decoded value is returned as-is (the Python code returns the raw
`json.loads` result without validating it against `GeneratorOutput`). -/
def parse_generated_terraform (agent_response : List Char) : Except PyErr JValue :=
  pgtDecode (pgtExtract agent_response)

/-! ## Orchestrator (src/orchestrator.py) -/

/-- The brace-matching fallback of `_extract_response_text`: scan from the
first `{` counting braces (`{` increments, `}` decrements); at the first
balanced close try `json.loads` once and on success return the slice,
otherwise give up (`break`). -/
def braceCountGo (s : List Char) (start : Nat) : Nat → Nat → Nat → Option (List Char)
  | _, _, 0 => none
  | i, count, fuel + 1 =>
    match pyCharAt s i with
    | none => none
    | some c =>
      let count1 :=
        if c = lbrace then count + 1
        else if c = rbrace then count - 1
        else count
      if c = rbrace ∧ count1 = 0 then
        let potential_json := pySlice s start (i + 1)
        match pyJsonLoads potential_json with
        | .ok _ => some potential_json
        | .error _ => none
      else braceCountGo s start (i + 1) count1 fuel

/-- `_extract_response_text`, applied to the already-joined text of the
response events (the joining of event parts is not modelled; every property
below concerns the normalization of the combined text). -/
def extract_response_text (combined : List Char) : List Char :=
  let fenced : Option (List Char) :=
    match pyFind combined fenceJson 0 with
    | some i =>
      let json_start := i + 7
      match pyFind combined fence3 json_start with
      | some json_end =>
        if json_start < json_end then some (pyStrip (pySlice combined json_start json_end))
        else none
      | none => none
    | none =>
      match pyFind combined fence3 0 with
      | some i =>
        let json_start := i + 3
        match pyFind combined fence3 json_start with
        | some json_end =>
          if json_start < json_end then
            let potential_json := pyStrip (pySlice combined json_start json_end)
            if isSubAt potential_json [lbrace] 0 ∨ isSubAt potential_json [Char.ofNat 91] 0 then
              some potential_json
            else none
          else none
        | none => none
      | none => none
  match fenced with
  | some r => r
  | none =>
    match pyFind combined [lbrace] 0 with
    | some json_start_idx =>
      match braceCountGo combined json_start_idx json_start_idx 0
          (combined.length + 1 - json_start_idx) with
      | some potential_json => potential_json
      | none => combined
    | none => combined

/-- The regeneration prompt built around the validation feedback in
`_validation_loop`. -/
def regeneratePrompt (feedback : String) : String :=
  "The previous Terraform code had validation errors. Please fix them.\n\nVALIDATION FEEDBACK:\n" ++
    feedback ++
    "\n\nGenerate corrected Terraform code that addresses all the issues above.\nOutput the corrected code in JSON format.\n\nNote: You have session memory of previous attempts - use it to avoid repeating the same mistakes."

/-- Observable outcome of `_validation_loop`: the returned pair (`none`
models the unreachable fall-through, where `validation_results` is unbound),
the number of validation and regeneration calls, and the iteration numbers
in execution order. -/
structure LoopResult where
  result : Option (JValue × ValidatorOutput)
  vCalls : Nat
  rCalls : Nat
  iters : List Nat

/-- One `while iteration < max_validation_iterations` step of
`_validation_loop`.  The LLM runners are oracles producing the extracted
response texts: `validateResp i code` is the validator's response on
iteration `i`, `regenResp i prompt` the generator's.  `fuel` equals
`maxIter - iteration` along every reachable call, so fuel exhaustion is
exactly the loop condition turning false. -/
def validation_loop_go (validateResp : Nat → JValue → List Char)
    (regenResp : Nat → String → List Char) (maxIter : Nat) :
    Nat → JValue → Nat → Nat → Nat → List Nat → Except PyErr LoopResult
  | 0, _, _, vCalls, rCalls, iters => .ok ⟨none, vCalls, rCalls, iters⟩
  | fuel + 1, current_code, iteration, vCalls, rCalls, iters =>
    let it := iteration + 1
    match parse_validation_results (validateResp it current_code) with
    | .error e => .error e
    | .ok validation_results =>
      if ¬ should_regenerate validation_results then
        .ok ⟨some (current_code, validation_results), vCalls + 1, rCalls, iters ++ [it]⟩
      else if maxIter ≤ it then
        .ok ⟨some (current_code, validation_results), vCalls + 1, rCalls, iters ++ [it]⟩
      else
        let feedback := get_feedback_for_regeneration validation_results
        match parse_generated_terraform (regenResp it (regeneratePrompt feedback)) with
        | .error e => .error e
        | .ok code1 =>
          validation_loop_go validateResp regenResp maxIter fuel code1 it
            (vCalls + 1) (rCalls + 1) (iters ++ [it])

/-- `_validation_loop(terraform_code, architecture)`.  The `architecture`
argument is unused by the loop body and omitted.  A decode failure of either
parser is propagated (`Except.error`); the loop body contains no handler. -/
def validation_loop (validateResp : Nat → JValue → List Char)
    (regenResp : Nat → String → List Char) (maxIter : Nat)
    (terraform_code : JValue) : Except PyErr LoopResult :=
  validation_loop_go validateResp regenResp maxIter maxIter terraform_code 0 0 0 []

/-! ## Documentation agent (src/agents/documentation_agent.py) -/

/-- The response normalization of `parse_documentation`: strip, extract a
```markdown block (or a generic leading code block, using `rfind` for its
close), strip, and prepend a default heading when the text has none. -/
def pdNormalize (agent_response : List Char) : List Char :=
  let response := pyStrip agent_response
  let response :=
    match pyFind response fenceMd 0 with
    | some i =>
      let start := i + 11
      match pyFind response fence3 start with
      | some e =>
        if start < e then pyStrip (pySlice response start e) else response
      | none => response
    | none =>
      if fence3.isPrefixOf response ∧ pyContains (response.drop 3) fence3 then
        match pyFind response fence3 0 with
        | some k =>
          let start := k + 3
          match pyRFind response fence3 with
          | some e => if start < e then pyStrip (pySlice response start e) else response
          | none => response
        | none => response
      else response
  let response := pyStrip response
  if ¬ (isSubAt response [Char.ofNat 35] 0) ∧ ¬ pyContains response ['\n', Char.ofNat 35] then
    ("# Infrastructure Documentation\n\n").toList ++ response
  else response

/-- `parse_documentation`: the normalized text becomes the README; every
optional field of `DocumentationOutput` keeps its `None` default.  The
function is total (`DocumentationOutput(readme=...)` cannot fail: `readme`
is an unconstrained string field). -/
def parse_documentation (agent_response : List Char) : DocumentationOutput :=
  ⟨String.mk (pdNormalize agent_response), none, none, none, none⟩

/-- `os.path.join(a, b)` for a relative `b` (the only shape used). -/
def pathJoin (a b : String) : String :=
  if a = "" then b
  else if a.toList.getLast? = some '/' then a ++ b
  else a ++ "/" ++ b

/-- Python truthiness of an optional string (`None` and `""` are falsy). -/
def pyTruthy : Option String → Bool
  | none => false
  | some s => s ≠ ""

/-- `save_documentation_to_files`, modelled as the list of `(path, content)`
writes it performs (in program order) together with the returned
`saved_files` mapping. -/
def save_documentation_to_files (documentation : DocumentationOutput)
    (output_dir : String) : List (String × String) × List (String × String) :=
  let readme_path := pathJoin output_dir "README.md"
  let writes := [(readme_path, documentation.readme)]
  let saved_files := [("readme", readme_path)]
  let (writes, saved_files) :=
    if pyTruthy documentation.deployment_guide then
      (writes ++ [(pathJoin output_dir "DEPLOYMENT.md", documentation.deployment_guide.getD "")],
       saved_files ++ [("deployment_guide", pathJoin output_dir "DEPLOYMENT.md")])
    else (writes, saved_files)
  let (writes, saved_files) :=
    if pyTruthy documentation.security_guide then
      (writes ++ [(pathJoin output_dir "SECURITY.md", documentation.security_guide.getD "")],
       saved_files ++ [("security_guide", pathJoin output_dir "SECURITY.md")])
    else (writes, saved_files)
  let (writes, saved_files) :=
    if pyTruthy documentation.troubleshooting then
      (writes ++ [(pathJoin output_dir "TROUBLESHOOTING.md", documentation.troubleshooting.getD "")],
       saved_files ++ [("troubleshooting", pathJoin output_dir "TROUBLESHOOTING.md")])
    else (writes, saved_files)
  let (writes, saved_files) :=
    if pyTruthy documentation.architecture_diagram then
      (writes ++ [(pathJoin output_dir "architecture.mmd", documentation.architecture_diagram.getD "")],
       saved_files ++ [("diagram", pathJoin output_dir "architecture.mmd")])
    else (writes, saved_files)
  (writes, saved_files)

/-! ## Specification-side definitions and concrete fixtures -/

def c1PassWarn : ValidatorOutput :=
  ⟨"passed", true, true, [⟨"warning", "main.tf", "m", "f"⟩, ⟨"info", "a.tf", "i", "g"⟩], 2, "ok"⟩

def c1PassErr : ValidatorOutput :=
  ⟨"passed", true, true, [⟨"error", "main.tf", "m", "f"⟩], 1, "hm"⟩

/-- One error-severity entry, rendered as the spec words it:
`- [file] message` plus an indented fix line. -/
def renderCritical (e : ValidationError) : String :=
  "- [" ++ e.file ++ "] " ++ e.message ++ "\n  Fix: " ++ e.fix

/-- One warning-severity entry: `- [file] message` plus an indented fix line
(prefixed `Suggestion:`). -/
def renderWarning (w : ValidationError) : String :=
  "- [" ++ w.file ++ "] " ++ w.message ++ "\n  Suggestion: " ++ w.fix

/-- The feedback format as the specification words it: header, then every
`error`-severity entry (original order) under one heading, then every
`warning`-severity entry (original order) under another, `info` entries
omitted. -/
def feedbackSpec (v : ValidatorOutput) : String :=
  let errorGroup := (v.errors.filter (fun e => e.severity = "error")).map renderCritical
  let warningGroup := (v.errors.filter (fun e => e.severity = "warning")).map renderWarning
  String.intercalate "\n"
    (["The Terraform code has the following issues that need to be fixed:\n"] ++
      (if errorGroup = [] then [] else "\n**CRITICAL ERRORS:**" :: errorGroup) ++
      (if warningGroup = [] then [] else "\n**WARNINGS:**" :: warningGroup))

/-- The single-error scenario from the claim. -/
def c6Example : ValidatorOutput :=
  ⟨"failed", false, false, [⟨"error", "a.tf", "x", "y"⟩], 1, ""⟩

/-- A text with fences whose stripped form neither starts with `#` nor
contains `\n#`: the decoder extracts the fenced content `#hello`, so the
README is not the default heading prepended to the original text (it does
not even begin with the default heading). -/
def c8CounterInput : List Char := ("```markdown #hello ```").toList

/-- A well-formed validator response whose `error_count` (5) disagrees with
its empty `errors` list.  The schema does not relate the two fields, so the
decoded record violates the invariant. -/
def c9Response : List Char :=
  ("\x7b\"validation_status\": \"passed\", \"syntax_valid\": true, \"configuration_valid\": true, \"errors\": [], \"error_count\": 5, \"summary\": \"ok\"\x7d").toList

/-- A response that decodes but fails schema validation (missing fields). -/
def c9BadSchema : List Char := ("\x7b\"a\": 1\x7d").toList

/-- The normalization as the specification words it: the substring between
the ```json marker and the *last* occurring closing fence in the text. -/
def extractLastFenceSpec (s : List Char) : Option (List Char) :=
  match pyFind s fenceJson 0 with
  | some i =>
    let json_start := i + 7
    match pyRFindFrom s fence3 json_start with
    | some j =>
      if json_start < j then some (pyStrip (pySlice s json_start j)) else none
    | none => none
  | none => none

/-- A ```json payload followed by further fenced content: both normalizers
stop at the *first* closing fence (returning `A`), not the last (which would
return the longer text), refuting the claim as stated. -/
def c4Input : List Char := ("```json\nA\n```\nB\n```C```").toList

/-- The amended C4 behaviour evaluated on a concrete fenced response. -/
def c4Witness : List Char := ("x```json\nA\n```B").toList

/-- Observable: the decode ended in the `ValueError` raise. -/
def isValueErrB : Except PyErr JValue → Bool
  | .error (.valueErr _) => true
  | _ => false

/-- `[1 2]` fails with a missing-delimiter error at offset 3, the claimed
comma insertion would repair it, yet the decoder performs no repair (the
character before the offset is a space, not `}`/`]`/`"`) and raises. -/
def c7Input : List Char := ("[1 2]").toList

def c7CommaOk : List Char := ("[\"a\"\"b\"]").toList

def c7CommaBad : List Char := ("[\"a\"\x7d").toList

def c7UntermOk : List Char := ("\x7b\"modules\": [\x7b\"files\": [\"abc").toList

def c7UntermBad : List Char := ("\"abc").toList

/-- `Except` success observable. -/
def exOk {ε α : Type} : Except ε α → Bool
  | .ok _ => true
  | .error _ => false

def c2PassResp : List Char :=
  ("\x7b\"validation_status\": \"passed\", \"syntax_valid\": true, \"configuration_valid\": true, \"errors\": [], \"error_count\": 0, \"summary\": \"good\"\x7d").toList

def c2RegenResp : List Char := ("\x7b\x7d").toList

def c3FailResp : List Char :=
  ("\x7b\"validation_status\": \"failed\", \"syntax_valid\": false, \"configuration_valid\": false, \"errors\": [], \"error_count\": 0, \"summary\": \"bad\"\x7d").toList

def c3FailVr : ValidatorOutput := ⟨"failed", false, false, [], 0, "bad"⟩

/-- A validator response that is not JSON at all: its decode failure is
absorbed into a fallback record and the loop still returns successfully. -/
def c5BadResp : List Char := ("not json").toList

/-! ## Helper lemmas on the string primitives -/

theorem pyFindGo_some (hay sub : List Char) :
    ∀ fuel i j, pyFindGo hay sub i fuel = some j →
      i ≤ j ∧ isSubAt hay sub j = true ∧
        ∀ k, i ≤ k → k < j → isSubAt hay sub k = false := by
  intro fuel
  induction fuel with
  | zero => intro i j h; simp [pyFindGo] at h
  | succ f ih =>
    intro i j h
    rw [pyFindGo] at h
    by_cases hp : sub.isPrefixOf (hay.drop i)
    · simp only [hp, if_pos, Option.some.injEq] at h
      subst h
      exact ⟨le_refl _, by simpa [isSubAt] using hp, fun k hk1 hk2 => absurd hk2 (by omega)⟩
    · simp only [hp, if_neg, Bool.false_eq_true, not_false_iff, if_false] at h
      obtain ⟨h1, h2, h3⟩ := ih (i + 1) j h
      refine ⟨by omega, h2, fun k hk1 hk2 => ?_⟩
      rcases Nat.eq_or_lt_of_le hk1 with heq | hlt
      · subst heq
        show sub.isPrefixOf (hay.drop i) = false
        exact Bool.eq_false_iff.mpr hp
      · exact h3 k hlt hk2

theorem pyFindGo_none (hay sub : List Char) :
    ∀ fuel i, pyFindGo hay sub i fuel = none →
      ∀ k, i ≤ k → k < i + fuel → isSubAt hay sub k = false := by
  intro fuel
  induction fuel with
  | zero => intro i _ k hk1 hk2; omega
  | succ f ih =>
    intro i h k hk1 hk2
    rw [pyFindGo] at h
    by_cases hp : sub.isPrefixOf (hay.drop i)
    · simp [hp] at h
    · simp only [hp, if_neg, Bool.false_eq_true, not_false_iff, if_false] at h
      rcases Nat.eq_or_lt_of_le hk1 with heq | hlt
      · subst heq
        show sub.isPrefixOf (hay.drop i) = false
        exact Bool.eq_false_iff.mpr hp
      · exact ih (i + 1) h k hlt (by omega)

/-- An occurrence of a non-empty pattern lies strictly inside the haystack. -/
theorem isSubAt_lt_length (hay sub : List Char) (hsub : sub ≠ []) (k : Nat)
    (h : isSubAt hay sub k = true) : k < hay.length := by
  by_contra hk
  have hd : hay.drop k = [] := List.drop_eq_nil_of_le (by omega)
  rw [isSubAt, hd] at h
  cases sub with
  | nil => exact hsub rfl
  | cons c cs => simp [List.isPrefixOf] at h

theorem pyFind_none (hay sub : List Char) (hsub : sub ≠ [])
    (h : pyFind hay sub 0 = none) : ∀ k, isSubAt hay sub k = false := by
  intro k
  by_cases hk : k < hay.length + 1
  · exact pyFindGo_none hay sub (hay.length + 1 - 0) 0 h k (Nat.zero_le k) (by omega)
  · by_contra hc
    rw [Bool.not_eq_false] at hc
    exact absurd (isSubAt_lt_length hay sub hsub k hc) (by omega)

theorem pyFind_some (hay sub : List Char) (start j : Nat)
    (h : pyFind hay sub start = some j) :
    start ≤ j ∧ isSubAt hay sub j = true ∧
      ∀ k, start ≤ k → k < j → isSubAt hay sub k = false :=
  pyFindGo_some hay sub (hay.length + 1 - start) start j h

/-- If the pattern occurs at all, `find` succeeds. -/
theorem pyContains_of_isSubAt (hay sub : List Char) (k : Nat)
    (hk : isSubAt hay sub k = true) (hkl : k ≤ hay.length) :
    pyContains hay sub = true := by
  rw [pyContains, pyFind]
  cases hfind : pyFindGo hay sub 0 (hay.length + 1 - 0) with
  | some j => rfl
  | none =>
    have := pyFindGo_none hay sub (hay.length + 1 - 0) 0 hfind k (Nat.zero_le k) (by omega)
    rw [this] at hk
    exact absurd hk (by simp)

/-- A list contains its own suffix: `sub` occurs in `pre ++ sub`. -/
theorem pyContains_append_self (pre sub : List Char) :
    pyContains (pre ++ sub) sub = true := by
  apply pyContains_of_isSubAt (pre ++ sub) sub pre.length
  · rw [isSubAt, List.drop_left]
    simp [List.isPrefixOf_iff_prefix]
  · simp

theorem dropWhile_dropWhile (p : Char → Bool) (l : List Char) :
    (l.dropWhile p).dropWhile p = l.dropWhile p := by
  induction l with
  | nil => rfl
  | cons c cs ih =>
    rw [List.dropWhile_cons]
    by_cases h : p c
    · simpa [h] using ih
    · simp [List.dropWhile_cons, h]

/-- `rstrip` is a prefix of its argument. -/
theorem pyRStrip_prefix (s : List Char) : pyRStrip s <+: s := by
  rw [pyRStrip]
  have h := List.dropWhile_suffix (l := s.reverse) isPyWs
  have := List.reverse_prefix.mpr h
  simpa using this

/-- After `dropWhile`, the head (if any) fails the predicate. -/
theorem dropWhile_head_false (p : Char → Bool) (l : List Char) (c : Char)
    (h : (l.dropWhile p).head? = some c) : p c = false := by
  have := List.head?_dropWhile_not p l
  rw [h] at this
  simpa using this

/-- `strip` is idempotent. -/
theorem pyStrip_idem (s : List Char) : pyStrip (pyStrip s) = pyStrip s := by
  have hL : (pyStrip s).dropWhile isPyWs = pyStrip s := by
    -- pyStrip s is a prefix of s.dropWhile isPyWs, whose head (if any)
    -- fails the predicate, so a second left trim removes nothing
    have hpre : pyStrip s <+: s.dropWhile isPyWs := pyRStrip_prefix _
    obtain ⟨t, ht⟩ := hpre
    cases hcase : pyStrip s with
    | nil => rfl
    | cons c0 cs0 =>
      rw [hcase] at ht
      have hc : (List.dropWhile isPyWs s).head? = some c0 := by
        rw [← ht]; rfl
      have hfalse := dropWhile_head_false isPyWs s c0 hc
      rw [List.dropWhile_cons, hfalse]
      simp
  calc pyStrip (pyStrip s)
      = ((pyStrip s).reverse.dropWhile isPyWs).reverse := by
        rw [pyStrip, hL]
    _ = pyStrip s := by
        rw [pyStrip]
        rw [List.reverse_reverse, dropWhile_dropWhile, ← pyStrip]

/-- An occurrence of ```markdown or ```json is an occurrence of ```. -/
theorem isSubAt_fence3_of_ext (hay ext : List Char) (hext : fence3 <+: ext) (i : Nat)
    (h : isSubAt hay ext i = true) : isSubAt hay fence3 i = true := by
  rw [isSubAt, List.isPrefixOf_iff_prefix] at h ⊢
  exact hext.trans h

theorem fence3_prefix_fenceMd : fence3 <+: fenceMd := by
  rw [← List.isPrefixOf_iff_prefix]
  decide

theorem fence3_prefix_fenceJson : fence3 <+: fenceJson := by
  rw [← List.isPrefixOf_iff_prefix]
  decide

/-- Without any ``` in the text there is no ```markdown either. -/
theorem pyFind_fenceMd_none (t : List Char) (h : pyContains t fence3 = false) :
    pyFind t fenceMd 0 = none := by
  cases hf : pyFind t fenceMd 0 with
  | none => rfl
  | some i =>
    obtain ⟨_, hocc, _⟩ := pyFind_some t fenceMd 0 i hf
    have h3 := isSubAt_fence3_of_ext t fenceMd fence3_prefix_fenceMd i hocc
    have hlt := isSubAt_lt_length t fence3 (by decide) i h3
    have := pyContains_of_isSubAt t fence3 i h3 (by omega)
    rw [this] at h
    exact absurd h (by simp)

/-! ## Claim C1: the `should_regenerate` decision -/

/-- C1: `should_regenerate` returns true iff the status is `failed` or some
error entry has severity `error`; in particular it is false when the status
is `passed` and every entry is a warning or info, and true as soon as one
entry has severity `error`, regardless of status. -/
theorem should_regenerate_characterization (v : ValidatorOutput) :
    (should_regenerate v = true ↔
      v.validation_status = "failed" ∨ ∃ e ∈ v.errors, e.severity = "error") ∧
    (v.validation_status = "passed" →
      (∀ e ∈ v.errors, e.severity = "warning" ∨ e.severity = "info") →
      should_regenerate v = false) ∧
    ((∃ e ∈ v.errors, e.severity = "error") → should_regenerate v = true) := by
  have hiff : should_regenerate v = true ↔
      v.validation_status = "failed" ∨ ∃ e ∈ v.errors, e.severity = "error" := by
    rw [should_regenerate]
    by_cases h : v.validation_status = "failed"
    · simp [h]
    · simp [h, List.any_eq_true]
  refine ⟨hiff, ?_, fun hex => hiff.mpr (Or.inr hex)⟩
  intro hp hall
  rw [Bool.eq_false_iff]
  intro htrue
  rcases hiff.mp htrue with hf | ⟨e, he, hsev⟩
  · rw [hp] at hf
    exact absurd hf (by decide)
  · rcases hall e he with h1 | h1 <;> rw [h1] at hsev <;> exact absurd hsev (by decide)

theorem should_regenerate_characterization_witness :
    should_regenerate c1PassWarn = false ∧ should_regenerate c1PassErr = true :=
  ⟨(should_regenerate_characterization c1PassWarn).2.1 rfl (by decide),
   (should_regenerate_characterization c1PassErr).2.2
     ⟨⟨"error", "main.tf", "m", "f"⟩, by simp [c1PassErr], rfl⟩⟩

/-! ## Claim C6: the regeneration-feedback formatter -/

theorem map_renderCritical (l : List ValidationError) :
    l.map renderCritical =
      l.map (fun error =>
        "- [" ++ error.file ++ "] " ++ error.message ++ "\n  Fix: " ++ error.fix) := rfl

theorem map_renderWarning (l : List ValidationError) :
    l.map renderWarning =
      l.map (fun warning =>
        "- [" ++ warning.file ++ "] " ++ warning.message ++ "\n  Suggestion: " ++ warning.fix) := rfl

/-- C6: the feedback string follows the spec format — errors before warnings,
order preserved inside each group, info omitted, each entry rendered as
`- [file] message` plus an indented fix line — and on the single-error
scenario it contains `- [a.tf] x` followed by the indented `Fix: y`. -/
theorem feedback_formatter_matches_spec :
    (∀ v : ValidatorOutput, get_feedback_for_regeneration v = feedbackSpec v) ∧
    should_regenerate c6Example = true ∧
    get_feedback_for_regeneration c6Example =
      "The Terraform code has the following issues that need to be fixed:\n\n\n**CRITICAL ERRORS:**\n- [a.tf] x\n  Fix: y" ∧
    pyContains ((get_feedback_for_regeneration c6Example).toList)
      (("- [a.tf] x\n  Fix: y").toList) = true := by
  refine ⟨?_, rfl, rfl, by decide⟩
  intro v
  rw [get_feedback_for_regeneration, feedbackSpec]
  by_cases hc : v.errors.filter (fun e => e.severity = "error") = [] <;>
    by_cases hw : v.errors.filter (fun e => e.severity = "warning") = [] <;>
      simp [hc, hw, map_renderCritical, map_renderWarning]

/-! ## Claim C10: documentation output shape and files written -/

/-- C10: every parsed documentation record has all four optional fields
`None`, and saving such a record writes exactly one file, `README.md`, with a
mapping containing only the `readme` key. -/
theorem documentation_single_file (s : List Char) (output_dir : String) :
    (parse_documentation s).deployment_guide = none ∧
    (parse_documentation s).security_guide = none ∧
    (parse_documentation s).troubleshooting = none ∧
    (parse_documentation s).architecture_diagram = none ∧
    save_documentation_to_files (parse_documentation s) output_dir =
      ([(pathJoin output_dir "README.md", (parse_documentation s).readme)],
       [("readme", pathJoin output_dir "README.md")]) :=
  ⟨rfl, rfl, rfl, rfl, rfl⟩

/-! ## Claim C8: documentation decoder default heading -/

/-- The find-to-none direction used below: if `find` returned `none`, the
pattern occurs nowhere. -/
theorem pyContains_false_find_none (hay sub : List Char)
    (h : pyContains hay sub = false) : pyFind hay sub 0 = none := by
  cases hf : pyFind hay sub 0 with
  | none => rfl
  | some j => rw [pyContains, hf] at h; simp at h

theorem parse_documentation_heading_counterexample :
    isSubAt (pyStrip c8CounterInput) [Char.ofNat 35] 0 = false ∧
    pyContains (pyStrip c8CounterInput) ['\n', Char.ofNat 35] = false ∧
    (parse_documentation c8CounterInput).readme = "#hello" ∧
    (parse_documentation c8CounterInput).readme ≠
      String.mk (("# Infrastructure Documentation\n\n").toList ++ pyStrip c8CounterInput) ∧
    (("# Infrastructure Documentation").toList).isPrefixOf
      ((parse_documentation c8CounterInput).readme.toList) = false := by
  exact ⟨rfl, rfl, rfl, by decide, by decide⟩

/-- C8 (amended): for input whose stripped text contains no code fence,
does not start with `#`, and contains no `\n#`, the decoder does not raise
and returns a record whose README is the default heading prepended to the
stripped text; when fences are present the heading logic applies to the
extracted fence content instead. -/
theorem parse_documentation_default_header (s : List Char)
    (hfence : pyContains (pyStrip s) fence3 = false)
    (hhash : isSubAt (pyStrip s) [Char.ofNat 35] 0 = false)
    (hnl : pyContains (pyStrip s) ['\n', Char.ofNat 35] = false) :
    parse_documentation s =
      ⟨String.mk (("# Infrastructure Documentation\n\n").toList ++ pyStrip s),
        none, none, none, none⟩ := by
  have hnone3 : pyFind (pyStrip s) fence3 0 = none := pyContains_false_find_none _ _ hfence
  have hsub3 := pyFind_none (pyStrip s) fence3 (by decide) hnone3
  have hMd : pyFind (pyStrip s) fenceMd 0 = none := pyFind_fenceMd_none _ hfence
  have hpre3 : fence3.isPrefixOf (pyStrip s) = false := hsub3 0
  have hnorm : pdNormalize s = ("# Infrastructure Documentation\n\n").toList ++ pyStrip s := by
    rw [pdNormalize, hMd]
    simp only [hpre3, Bool.false_eq_true, false_and, if_false, pyStrip_idem]
    simp [hhash, hnl]
  rw [parse_documentation, hnorm]

theorem parse_documentation_default_header_witness :
    parse_documentation (("not json and no heading").toList) =
      ⟨"# Infrastructure Documentation\n\nnot json and no heading",
        none, none, none, none⟩ := by
  rw [parse_documentation_default_header (("not json and no heading").toList)
    (by decide) (by decide) (by decide)]
  rfl

/-! ## Claim C9: the `error_count == len(errors)` invariant -/

set_option maxRecDepth 100000 in
theorem error_count_invariant_counterexample :
    parse_validation_results c9Response = .ok ⟨"passed", true, true, [], 5, "ok"⟩ ∧
    (5 : Int) ≠ ((([] : List ValidationError).length : Nat) : Int) := by
  exact ⟨rfl, by decide⟩

/-- C9 (amended): the two fallback records maintain
`error_count = len(errors) = 1`; a successfully decoded record carries the
response's `error_count` verbatim (the schema does not tie it to the list
length, so the invariant can fail for decoded records). -/
theorem parse_validation_fallback_invariant (s : List Char) :
    (∀ e, pyJsonLoads (pvrExtract s) = .error e →
      parse_validation_results s = .ok (pvrJsonFallback e) ∧
        (pvrJsonFallback e).error_count = (((pvrJsonFallback e).errors.length : Nat) : Int)) ∧
    (∀ kvs em, pyJsonLoads (pvrExtract s) = .ok (.jobj kvs) →
      pyValidatorOutputOfDict kvs = .error em →
      parse_validation_results s = .ok (pvrPydFallback em) ∧
        (pvrPydFallback em).error_count = (((pvrPydFallback em).errors.length : Nat) : Int)) ∧
    (∀ kvs r, pyJsonLoads (pvrExtract s) = .ok (.jobj kvs) →
      pyValidatorOutputOfDict kvs = .ok r →
      parse_validation_results s = .ok r) := by
  refine ⟨fun e he => ⟨?_, rfl⟩, fun kvs em hk hp => ⟨?_, rfl⟩, fun kvs r hk hp => ?_⟩
  · rw [parse_validation_results, he]
  · rw [parse_validation_results, hk]
    simp [hp]
  · rw [parse_validation_results, hk]
    simp [hp]

set_option maxRecDepth 100000 in
theorem parse_validation_fallback_invariant_witness :
    (parse_validation_results (("not json").toList) =
        .ok (pvrJsonFallback (mkJErr msgValue (("not json").toList) 0)) ∧
      (pvrJsonFallback (mkJErr msgValue (("not json").toList) 0)).error_count = 1 ∧
      (pvrJsonFallback (mkJErr msgValue (("not json").toList) 0)).errors.length = 1) ∧
    (parse_validation_results c9BadSchema =
        .ok (pvrPydFallback (("validation_status").toList)) ∧
      (pvrPydFallback (("validation_status").toList)).error_count = 1 ∧
      (pvrPydFallback (("validation_status").toList)).errors.length = 1) ∧
    parse_validation_results c9Response = .ok ⟨"passed", true, true, [], 5, "ok"⟩ := by
  refine ⟨⟨?_, rfl, rfl⟩, ⟨?_, rfl, rfl⟩, ?_⟩
  · exact ((parse_validation_fallback_invariant (("not json").toList)).1
      (mkJErr msgValue (("not json").toList) 0) rfl).1
  · exact ((parse_validation_fallback_invariant c9BadSchema).2.1
      [(("a").toList, .jint 1)] (("validation_status").toList) rfl rfl).1
  · exact (parse_validation_fallback_invariant c9Response).2.2
      [(("validation_status").toList, .jstr (("passed").toList)),
       (("syntax_valid").toList, .jbool true),
       (("configuration_valid").toList, .jbool true),
       (("errors").toList, .jarr []),
       (("error_count").toList, .jint 5),
       (("summary").toList, .jstr (("ok").toList))] ⟨"passed", true, true, [], 5, "ok"⟩ rfl rfl

/-! ## Claim C4: which closing fence ends the extraction -/

theorem extract_first_fence_counterexample :
    extract_response_text c4Input = ("A").toList ∧
    pgtExtract c4Input = ("A").toList ∧
    extractLastFenceSpec c4Input = some (("A\n```\nB\n```C").toList) ∧
    ("A").toList ≠ ("A\n```\nB\n```C").toList := by
  exact ⟨rfl, rfl, rfl, by decide⟩

/-- C4 (amended): when the text contains a ```json marker with a closing
fence after it, both normalizers return the stripped substring between the
marker and the *first* subsequent closing fence (`j` below is an occurrence
of ``` and nothing between the marker and `j` is one). -/
theorem extract_uses_first_closing_fence :
    (∀ s i j, pyFind s fenceJson 0 = some i → pyFind s fence3 (i + 7) = some j →
      i + 7 < j →
      extract_response_text s = pyStrip (pySlice s (i + 7) j) ∧
        isSubAt s fence3 j = true ∧
        ∀ k, i + 7 ≤ k → k < j → isSubAt s fence3 k = false) ∧
    (∀ s i j, pyFind (pyStrip s) fenceJson 0 = some i →
      pyFind (pyStrip s) fence3 (i + 7) = some j → i + 7 < j →
      pgtExtract s = pyStrip (pySlice (pyStrip s) (i + 7) j)) := by
  constructor
  · intro s i j hi hj hlt
    obtain ⟨hle, hocc, hmin⟩ := pyFind_some s fence3 (i + 7) j hj
    refine ⟨?_, hocc, hmin⟩
    rw [extract_response_text, hi]
    simp [hj, hlt]
  · intro s i j hi hj hlt
    rw [pgtExtract, hi]
    simp [hj, hlt, pyStrip_idem]

theorem extract_uses_first_closing_fence_witness :
    (extract_response_text c4Witness = ("A").toList ∧
      isSubAt c4Witness fence3 11 = true ∧
      ∀ k, 8 ≤ k → k < 11 → isSubAt c4Witness fence3 k = false) ∧
    pgtExtract c4Witness = ("A").toList := by
  constructor
  · have h := extract_uses_first_closing_fence.1 c4Witness 1 11 rfl rfl (by omega)
    exact ⟨h.1, h.2.1, h.2.2⟩
  · have h := extract_uses_first_closing_fence.2 c4Witness 1 11 rfl rfl (by omega)
    exact h

/-! ## Claim C7: the decode-repair behaviour of `parse_generated_terraform` -/

set_option maxRecDepth 100000 in
theorem comma_repair_guard_counterexample :
    pyJsonLoads c7Input = .error (mkJErr msgComma c7Input 3) ∧
    pyContains (jerrStr (mkJErr msgComma c7Input 3)) msgComma = true ∧
    pyCharAt c7Input 2 = some ' ' ∧
    isCloser (pyCharAt c7Input 2) = false ∧
    pyJsonLoads (pyInsertAt c7Input 3 ',') = .ok (.jarr [.jint 1, .jint 2]) ∧
    isValueErrB (parse_generated_terraform c7Input) = true := by
  exact ⟨rfl, rfl, rfl, rfl, rfl, rfl⟩

/-- C7 (amended): on a missing-delimiter error the decoder inserts a comma
just before the failure offset and retries exactly once — provided the
character immediately before the offset is `}`, `]` or `"` (otherwise no
repair is attempted); on an unterminated-string error with an odd quote
count it appends `"]}]}` to the right-stripped text and retries exactly
once; if the retry fails the decoder raises a `ValueError` whose message
carries the (repaired) text's first 500 characters. -/
theorem pgt_repair_behaviour :
    (∀ r e v, pyJsonLoads r = .error e →
      pyContains (jerrStr e) msgComma = true → 0 < e.pos →
      isCloser (pyCharAt r (e.pos - 1)) = true →
      pyJsonLoads (pyInsertAt r e.pos ',') = .ok v →
      pgtDecode r = .ok v) ∧
    (∀ r e e2, pyJsonLoads r = .error e →
      pyContains (jerrStr e) msgComma = true → 0 < e.pos →
      isCloser (pyCharAt r (e.pos - 1)) = true →
      pyJsonLoads (pyInsertAt r e.pos ',') = .error e2 →
      pyContains (jerrStr e) msgUnterm = false →
      pgtDecode r = .error (.valueErr (pgtRaiseMsg e (pyInsertAt r e.pos ',')))) ∧
    (∀ r e v, pyJsonLoads r = .error e →
      pyContains (jerrStr e) msgComma = false →
      pyContains (jerrStr e) msgUnterm = true →
      r.count '"' % 2 = 1 →
      pyJsonLoads (pyRStrip r ++ closeSeq) = .ok v →
      pgtDecode r = .ok v) ∧
    (∀ r e e2, pyJsonLoads r = .error e →
      pyContains (jerrStr e) msgComma = false →
      pyContains (jerrStr e) msgUnterm = true →
      r.count '"' % 2 = 1 →
      pyJsonLoads (pyRStrip r ++ closeSeq) = .error e2 →
      pgtDecode r = .error (.valueErr (pgtRaiseMsg e (pyRStrip r ++ closeSeq)))) ∧
    (∀ e resp, pyContains (pgtRaiseMsg e resp) (resp.take 500) = true) := by
  refine ⟨?_, ?_, ?_, ?_, ?_⟩
  · intro r e v h1 h2 h3 h4 h5
    rw [pgtDecode, h1]
    simp [h2, h3, h4, h5]
  · intro r e e2 h1 h2 h3 h4 h5 h6
    rw [pgtDecode, h1]
    simp [h2, h3, h4, h5, h6]
  · intro r e v h1 h2 h3 h4 h5
    rw [pgtDecode, h1]
    simp [h2, h3, h4, h5]
  · intro r e e2 h1 h2 h3 h4 h5
    rw [pgtDecode, h1]
    simp [h2, h3, h4, h5]
  · intro e resp
    unfold pgtRaiseMsg
    exact pyContains_append_self _ _

set_option maxRecDepth 400000 in
theorem pgt_repair_behaviour_witness :
    pgtDecode c7CommaOk = .ok (.jarr [.jstr (("a").toList), .jstr (("b").toList)]) ∧
    pgtDecode c7CommaBad =
      .error (.valueErr (pgtRaiseMsg (mkJErr msgComma c7CommaBad 4)
        (pyInsertAt c7CommaBad 4 ','))) ∧
    pgtDecode c7UntermOk =
      .ok (.jobj [(("modules").toList,
        .jarr [.jobj [(("files").toList, .jarr [.jstr (("abc").toList)])]])]) ∧
    pgtDecode c7UntermBad =
      .error (.valueErr (pgtRaiseMsg (mkJErr msgUnterm c7UntermBad 0)
        (pyRStrip c7UntermBad ++ closeSeq))) ∧
    pyContains (pgtRaiseMsg (mkJErr msgValue [] 0) (("xy").toList))
      ((("xy").toList).take 500) = true := by
  refine ⟨?_, ?_, ?_, ?_, ?_⟩
  · exact pgt_repair_behaviour.1 c7CommaOk (mkJErr msgComma c7CommaOk 4)
      (.jarr [.jstr (("a").toList), .jstr (("b").toList)]) rfl rfl (by decide) rfl rfl
  · exact pgt_repair_behaviour.2.1 c7CommaBad (mkJErr msgComma c7CommaBad 4)
      (mkJErr msgValue (pyInsertAt c7CommaBad 4 ',') 5) rfl rfl (by decide) rfl rfl (by decide)
  · exact pgt_repair_behaviour.2.2.1 c7UntermOk (mkJErr msgUnterm c7UntermOk 24)
      (.jobj [(("modules").toList,
        .jarr [.jobj [(("files").toList, .jarr [.jstr (("abc").toList)])]])])
      rfl rfl rfl (by decide) rfl
  · exact pgt_repair_behaviour.2.2.2.1 c7UntermBad (mkJErr msgUnterm c7UntermBad 0)
      (mkJErr msgExtra (pyRStrip c7UntermBad ++ closeSeq) 5) rfl rfl rfl (by decide) rfl
  · exact pgt_repair_behaviour.2.2.2.2 (mkJErr msgValue [] 0) (("xy").toList)

/-! ## Claims C2/C3/C5: the validation loop -/

/-- Loop-body invariant: when every decode succeeds, the loop returns a
result with both components present, makes between 1 and `fuel` further
validation calls, and visits consecutive iteration numbers. -/
theorem validation_loop_go_ok (validateResp : Nat → JValue → List Char)
    (regenResp : Nat → String → List Char) (m : Nat)
    (hv : ∀ i c, exOk (parse_validation_results (validateResp i c)) = true)
    (hr : ∀ i p, exOk (parse_generated_terraform (regenResp i p)) = true) :
    ∀ fuel code iteration vCalls rCalls iters, iteration + fuel = m → 0 < fuel →
      ∃ r : LoopResult,
        validation_loop_go validateResp regenResp m fuel code iteration vCalls rCalls iters =
            .ok r ∧
          r.result.isSome = true ∧ vCalls + 1 ≤ r.vCalls ∧ r.vCalls ≤ vCalls + fuel ∧
          r.iters = iters ++ List.range' (iteration + 1) (r.vCalls - vCalls) := by
  intro fuel
  induction fuel with
  | zero => intro code iteration vCalls rCalls iters hm h0; omega
  | succ f ih =>
    intro code iteration vCalls rCalls iters hm _
    obtain ⟨vr, hvr⟩ :
        ∃ vr, parse_validation_results (validateResp (iteration + 1) code) = .ok vr := by
      have h := hv (iteration + 1) code
      cases hres : parse_validation_results (validateResp (iteration + 1) code) with
      | ok v => exact ⟨v, rfl⟩
      | error e => rw [hres] at h; simp [exOk] at h
    by_cases hsr : should_regenerate vr = true
    · by_cases hlast : m ≤ iteration + 1
      · refine ⟨⟨some (code, vr), vCalls + 1, rCalls, iters ++ [iteration + 1]⟩, ?_, rfl,
          ?_, ?_, ?_⟩
        · rw [validation_loop_go, hvr]
          simp [hsr, hlast]
        · show vCalls + 1 ≤ vCalls + 1
          omega
        · show vCalls + 1 ≤ vCalls + (f + 1)
          omega
        · have h1 : vCalls + 1 - vCalls = 1 := by omega
          simp only [h1]
          rfl
      · have hnle : ¬ (m ≤ iteration + 1) := hlast
        obtain ⟨c2, hc2⟩ : ∃ c2, parse_generated_terraform
            (regenResp (iteration + 1)
              (regeneratePrompt (get_feedback_for_regeneration vr))) = .ok c2 := by
          have h := hr (iteration + 1) (regeneratePrompt (get_feedback_for_regeneration vr))
          cases hres : parse_generated_terraform
              (regenResp (iteration + 1)
                (regeneratePrompt (get_feedback_for_regeneration vr))) with
          | ok v => exact ⟨v, rfl⟩
          | error e => rw [hres] at h; simp [exOk] at h
        obtain ⟨r, hgo, hsome, hlow, hhigh, hiters⟩ :=
          ih c2 (iteration + 1) (vCalls + 1) (rCalls + 1) (iters ++ [iteration + 1])
            (by omega) (by omega)
        refine ⟨r, ?_, hsome, by omega, by omega, ?_⟩
        · rw [validation_loop_go, hvr]
          simp only [hsr, not_true_eq_false, if_false, hnle, hc2]
          exact hgo
        · rw [hiters]
          have hn : r.vCalls - vCalls = (r.vCalls - (vCalls + 1)) + 1 := by omega
          rw [hn, List.range'_succ]
          simp
    · refine ⟨⟨some (code, vr), vCalls + 1, rCalls, iters ++ [iteration + 1]⟩, ?_, rfl,
        ?_, ?_, ?_⟩
      · rw [validation_loop_go, hvr]
        simp [hsr]
      · show vCalls + 1 ≤ vCalls + 1
        omega
      · show vCalls + 1 ≤ vCalls + (f + 1)
        omega
      · have h1 : vCalls + 1 - vCalls = 1 := by omega
        simp only [h1]
        rfl

/-- C2: for any initial bundle and any maximum `m ≥ 1`, when every decode
succeeds the loop terminates with a present (non-null) bundle/result pair,
makes between 1 and `m` validation calls, and its iteration counter runs
monotonically `1, 2, …` never exceeding `m`.  (A decode failure instead
aborts the whole loop — the behaviour of claim C5.) -/
theorem validation_loop_terminates_bounded (validateResp : Nat → JValue → List Char)
    (regenResp : Nat → String → List Char) (m : Nat) (code : JValue)
    (hm : 1 ≤ m)
    (hv : ∀ i c, exOk (parse_validation_results (validateResp i c)) = true)
    (hr : ∀ i p, exOk (parse_generated_terraform (regenResp i p)) = true) :
    ∃ r : LoopResult,
      validation_loop validateResp regenResp m code = .ok r ∧
        r.result.isSome = true ∧ 1 ≤ r.vCalls ∧ r.vCalls ≤ m ∧
        r.iters = List.range' 1 r.vCalls ∧
        ∀ i ∈ r.iters, 1 ≤ i ∧ i ≤ m := by
  obtain ⟨r, hgo, hsome, hlow, hhigh, hiters⟩ :=
    validation_loop_go_ok validateResp regenResp m hv hr m code 0 0 0 [] (by omega) (by omega)
  refine ⟨r, hgo, hsome, by omega, by omega, by simpa using hiters, ?_⟩
  intro i hi
  rw [hiters] at hi
  simp only [List.nil_append, List.mem_range'] at hi
  obtain ⟨k, hk, rfl⟩ := hi
  constructor <;> omega

set_option maxRecDepth 400000 in
theorem c2PassRespOk : exOk (parse_validation_results c2PassResp) = true := rfl

set_option maxRecDepth 400000 in
theorem c2RegenRespOk : exOk (parse_generated_terraform c2RegenResp) = true := rfl

set_option maxRecDepth 400000 in
theorem validation_loop_terminates_bounded_witness :
    ∃ r : LoopResult,
      validation_loop (fun _ _ => c2PassResp) (fun _ _ => c2RegenResp) 3 JValue.null = .ok r ∧
        r.result.isSome = true ∧ 1 ≤ r.vCalls ∧ r.vCalls ≤ 3 ∧
        r.iters = List.range' 1 r.vCalls ∧
        ∀ i ∈ r.iters, 1 ≤ i ∧ i ≤ 3 :=
  validation_loop_terminates_bounded (fun _ _ => c2PassResp) (fun _ _ => c2RegenResp) 3
    JValue.null (by omega) (fun _ _ => c2PassRespOk) (fun _ _ => c2RegenRespOk)

/-- C3: when the iteration counter has reached the maximum and the
accept-condition fails, the loop returns the current (still-failing) bundle
with its validation result; with maximum 1 and a first result that demands
regeneration, it makes exactly one validation call, zero regeneration calls,
and returns the original bundle unchanged. -/
theorem validation_loop_exhausted_at_max :
    (∀ (validateResp : Nat → JValue → List Char) (regenResp : Nat → String → List Char)
        (m : Nat) (code : JValue) (iteration vCalls rCalls : Nat) (iters : List Nat)
        (vr : ValidatorOutput),
      iteration + 1 = m →
      parse_validation_results (validateResp (iteration + 1) code) = .ok vr →
      should_regenerate vr = true →
      validation_loop_go validateResp regenResp m 1 code iteration vCalls rCalls iters =
        .ok ⟨some (code, vr), vCalls + 1, rCalls, iters ++ [iteration + 1]⟩) ∧
    (∀ (validateResp : Nat → JValue → List Char) (regenResp : Nat → String → List Char)
        (code : JValue) (vr : ValidatorOutput),
      parse_validation_results (validateResp 1 code) = .ok vr →
      should_regenerate vr = true →
      validation_loop validateResp regenResp 1 code = .ok ⟨some (code, vr), 1, 0, [1]⟩) := by
  have h1 : ∀ (validateResp : Nat → JValue → List Char) (regenResp : Nat → String → List Char)
      (m : Nat) (code : JValue) (iteration vCalls rCalls : Nat) (iters : List Nat)
      (vr : ValidatorOutput),
      iteration + 1 = m →
      parse_validation_results (validateResp (iteration + 1) code) = .ok vr →
      should_regenerate vr = true →
      validation_loop_go validateResp regenResp m 1 code iteration vCalls rCalls iters =
        .ok ⟨some (code, vr), vCalls + 1, rCalls, iters ++ [iteration + 1]⟩ := by
    intro validateResp regenResp m code iteration vCalls rCalls iters vr hm hparse hregen
    subst hm
    rw [validation_loop_go, hparse]
    simp [hregen]
  refine ⟨h1, ?_⟩
  intro validateResp regenResp code vr hparse hregen
  have h := h1 validateResp regenResp 1 code 0 0 0 [] vr rfl hparse hregen
  simpa [validation_loop] using h

set_option maxRecDepth 400000 in
theorem validation_loop_exhausted_at_max_witness :
    validation_loop (fun _ _ => c3FailResp) (fun _ _ => ("x").toList) 1 JValue.null =
      .ok ⟨some (JValue.null, c3FailVr), 1, 0, [1]⟩ :=
  validation_loop_exhausted_at_max.2 (fun _ _ => c3FailResp) (fun _ _ => ("x").toList)
    JValue.null c3FailVr rfl rfl

set_option maxRecDepth 100000 in
theorem decode_substitution_counterexample :
    pyJsonLoads (pvrExtract c5BadResp) = .error (mkJErr msgValue c5BadResp 0) ∧
    parse_validation_results c5BadResp =
      .ok (pvrJsonFallback (mkJErr msgValue c5BadResp 0)) ∧
    validation_loop (fun _ _ => c5BadResp) (fun _ _ => ("x").toList) 1 JValue.null =
      .ok ⟨some (JValue.null, pvrJsonFallback (mkJErr msgValue c5BadResp 0)), 1, 0, [1]⟩ := by
  exact ⟨rfl, rfl, rfl⟩

/-- C5 (amended): a decode failure of a regenerated code bundle is
propagated out of the loop as a fatal error (the loop has no handler and
substitutes nothing); a JSON decode failure of a validation result, however,
never escapes — `parse_validation_results` catches it and substitutes the
fallback failed-status record. -/
theorem bundle_decode_failure_propagates :
    (∀ (validateResp : Nat → JValue → List Char) (regenResp : Nat → String → List Char)
        (m : Nat) (code : JValue) (vr : ValidatorOutput) (e : PyErr),
      2 ≤ m →
      parse_validation_results (validateResp 1 code) = .ok vr →
      should_regenerate vr = true →
      parse_generated_terraform
          (regenResp 1 (regeneratePrompt (get_feedback_for_regeneration vr))) = .error e →
      validation_loop validateResp regenResp m code = .error e) ∧
    (∀ s e, pyJsonLoads (pvrExtract s) = .error e →
      parse_validation_results s = .ok (pvrJsonFallback e)) := by
  constructor
  · intro validateResp regenResp m code vr e hm hparse hregen hfail
    obtain ⟨f, rfl⟩ : ∃ f, m = f + 1 := ⟨m - 1, by omega⟩
    rw [validation_loop, validation_loop_go, hparse]
    have hnle : ¬ (f + 1 ≤ 0 + 1) := by omega
    simp only [hregen, not_true_eq_false, if_false, Nat.zero_add, hnle, hfail]
  · intro s e he
    rw [parse_validation_results, he]

set_option maxRecDepth 400000 in
theorem bundle_decode_failure_propagates_witness :
    validation_loop (fun _ _ => c3FailResp) (fun _ _ => c7Input) 2 JValue.null =
      .error (.valueErr (pgtRaiseMsg (mkJErr msgComma c7Input 3) c7Input)) ∧
    parse_validation_results c5BadResp =
      .ok (pvrJsonFallback (mkJErr msgValue c5BadResp 0)) := by
  constructor
  · exact bundle_decode_failure_propagates.1 (fun _ _ => c3FailResp) (fun _ _ => c7Input) 2
      JValue.null c3FailVr (.valueErr (pgtRaiseMsg (mkJErr msgComma c7Input 3) c7Input))
      (by omega) rfl rfl rfl
  · exact bundle_decode_failure_propagates.2 c5BadResp (mkJErr msgValue c5BadResp 0) rfl
